import Mathlib

/-!
# Verification of the Cardputer app framework

A shallow embedding of the application framework of the `cardputer-adv`
repository (`lib/framework.py`, `libs/app_base.py`, `apps/launcher.py`)
together with proofs of the behavioural properties claimed by its
specification.

Modelling conventions:
* App instances are identified by natural numbers (`AppId`); Python
  reference equality between instances is equality of identifiers.
* Python `int` becomes `Int`; for a positive modulus Python's `%` agrees
  with `Int.emod`, which is Lean's `%` on `Int`.
* Side effects of the lifecycle hooks are logged into an explicit event
  trace (`Ev`), so "hook X is invoked" is an assertion about the trace.
* Fallible operations (`list.index` raising `ValueError`, imports raising)
  return `Option`; `none` stands for the exception path, and the state the
  operation returns in that case is the state at the moment of the raise
  (Python leaves all mutations made before the raise in place).
-/

/-- App instances are identified by numbers; two equal identifiers model
the same Python object (reference equality). -/
abbrev AppId := Nat

/-- Task handles created by `asyncio.create_task`; identified by numbers. -/
abbrev TaskId := Nat

namespace KeyCode

/-- `KeyCode.KEYCODE_ESC` from `lib/keycode.py` (`0x1B`). -/
def KEYCODE_ESC : Int := 0x1B

/-- `KeyCode.KEYCODE_ENTER` (`0x0D`). -/
def KEYCODE_ENTER : Int := 0x0D

/-- `KeyCode.KEYCODE_UP` (`0x26`). -/
def KEYCODE_UP : Int := 0x26

/-- `KeyCode.KEYCODE_DOWN` (`0x28`). -/
def KEYCODE_DOWN : Int := 0x28

end KeyCode

/-- The lifecycle hook points on `AppBase` (`libs/app_base.py`). -/
inductive Hook where
  | on_install
  | on_launch
  | on_view
  | on_ready
  | on_hide
  | on_exit
  | on_uninstall
  deriving DecidableEq, Repr

/-- Observable events logged by the embedding: a lifecycle hook invoked on
an app, an invocation of `Framework.return_to_launcher`, and an attempted
module import in `Framework._load_app`. -/
inductive Ev where
  | hook (a : AppId) (h : Hook)
  | rtl
  | importMod (p : String)
  deriving DecidableEq, Repr

/-- Number of `return_to_launcher` invocations recorded in a trace. -/
def rtlCount : List Ev → Nat
  | [] => 0
  | Ev.rtl :: es => rtlCount es + 1
  | _ :: es => rtlCount es

theorem rtlCount_append (l₁ l₂ : List Ev) :
    rtlCount (l₁ ++ l₂) = rtlCount l₁ + rtlCount l₂ := by
  induction l₁ with
  | nil => simp [rtlCount]
  | cons e es ih =>
    cases e <;> simp [rtlCount, ih, Nat.add_right_comm]


/-- First index of `x` in a list; embeds Python's `list.index`, which
returns the first occurrence and raises `ValueError` (here `none`) when
the element is absent. -/
def listIndex (x : AppId) : List AppId → Option Nat
  | [] => none
  | y :: ys => if y = x then some 0 else (listIndex x ys).map (· + 1)

theorem listIndex_of_mem {x : AppId} {l : List AppId} (h : x ∈ l) :
    ∃ i, listIndex x l = some i := by
  induction l with
  | nil => cases h
  | cons y ys ih =>
    by_cases hyx : y = x
    · exact ⟨0, by simp [listIndex, hyx]⟩
    · have hmem : x ∈ ys := by
        cases h with
        | head => exact absurd rfl hyx
        | tail _ h => exact h
      obtain ⟨i, hi⟩ := ih hmem
      exact ⟨i + 1, by simp [listIndex, hyx, hi]⟩

theorem listIndex_none_of_not_mem {x : AppId} {l : List AppId} (h : x ∉ l) :
    listIndex x l = none := by
  induction l with
  | nil => rfl
  | cons y ys ih =>
    have hyx : ¬ y = x := fun he => h (he ▸ List.mem_cons_self y ys)
    have hys : x ∉ ys := fun hm => h (List.mem_cons_of_mem y hm)
    simp [listIndex, hyx, ih hys]

/-- In a duplicate-free list the first index of the element stored at a
position is that position itself. -/
theorem listIndex_get_of_nodup {l : List AppId} (hnd : l.Nodup)
    {n : Nat} {x : AppId} (hget : l.get? n = some x) :
    listIndex x l = some n := by
  induction l generalizing n with
  | nil => simp at hget
  | cons y ys ih =>
    cases n with
    | zero =>
      rw [List.get?_cons_zero] at hget
      have hyx : y = x := Option.some.inj hget
      simp [listIndex, hyx]
    | succ m =>
      rw [List.get?_cons_succ] at hget
      have hx_mem : x ∈ ys := List.get?_mem hget
      have hyx : ¬ y = x := by
        intro he
        exact (List.nodup_cons.mp hnd).1 (he ▸ hx_mem)
      have := ih (List.nodup_cons.mp hnd).2 hget
      simp [listIndex, hyx, this]

/-!
## `AppSelector` (`libs/app_base.py`, lines 65-132)

A circular cursor over the shared apps list. The index `id` embeds the
Python attribute `_id`; it is a Python `int`, so we use `Int`, and Python's
`%` for the positive modulus `len(self._apps)` is `Int.emod`.
-/

structure AppSelector where
  apps : List AppId
  id : Int
  deriving DecidableEq, Repr

namespace AppSelector

/-- `AppSelector.__init__`: starts at index 0. -/
def init (apps : List AppId) : AppSelector := ⟨apps, 0⟩

/-- `AppSelector.prev`: `self._id = (self._id - 1) % len(self._apps)`.
(For an empty list Python raises `ZeroDivisionError`; callers guarantee a
non-empty list.) -/
def prev (s : AppSelector) : AppSelector :=
  { s with id := (s.id - 1) % (s.apps.length : Int) }

/-- `AppSelector.next`: `self._id = (self._id + 1) % len(self._apps)`. -/
def next (s : AppSelector) : AppSelector :=
  { s with id := (s.id + 1) % (s.apps.length : Int) }

/-- `AppSelector.current`: `self._apps[self._id]`; `none` models the
`IndexError` raised when the index is out of range.  (The framework keeps
`_id` inside `[0, len)`, so the Python negative-index wraparound is never
exercised.) -/
def current (s : AppSelector) : Option AppId :=
  if 0 ≤ s.id then s.apps.get? s.id.toNat else none

/-- `AppSelector.select`: `self._id = self._apps.index(app)`; `none`
models the `ValueError` raised when the app is not in the list. -/
def select (s : AppSelector) (app : AppId) : Option AppSelector :=
  (listIndex app s.apps).map fun i => { s with id := (i : Int) }

/-- `AppSelector.index`: `self._id = id % len(self._apps)`. -/
def index (s : AppSelector) (i : Int) : AppSelector :=
  { s with id := i % (s.apps.length : Int) }

/-- `AppSelector.current_index`. -/
def current_index (s : AppSelector) : Int := s.id

end AppSelector

/-!
## `AppBase` orchestration (`libs/app_base.py`, lines 140-336)

The lifecycle hooks are overridable by subclasses, so the orchestration
entry points `start` / `stop` / `pause` / `resume` are embedded
generically: an app supplies one state transformer per hook, over its own
private state `σ`.  Each direct call the orchestrator makes is logged, so
the order and multiplicity of hook invocations is visible in the trace.
-/

/-- The overridable hook implementations of an `AppBase` subclass, as
transformers of the app's own state `σ`. -/
structure Hooks (σ : Type) where
  on_launch : σ → σ
  on_view : σ → σ
  on_ready : σ → σ
  on_hide : σ → σ
  on_exit : σ → σ

/-- One direct hook call made by an orchestration entry point: apply the
implementation and log the hook's name. -/
def invokeHook {σ : Type} (f : σ → σ) (h : Hook) :
    σ × List Hook → σ × List Hook :=
  fun st => (f st.1, st.2 ++ [h])

namespace AppBase

/-- `AppBase.start` (lines 297-313): calls `on_launch()`, `on_view()`,
`on_ready()` in sequence.  (The assignment `self._fw = fw` only stores the
framework reference and calls no hook; it is modelled at the framework
level.) -/
def start {σ : Type} (H : Hooks σ) (st : σ × List Hook) : σ × List Hook :=
  invokeHook H.on_ready .on_ready
    (invokeHook H.on_view .on_view
      (invokeHook H.on_launch .on_launch st))

/-- `AppBase.stop` (lines 323-331): calls `on_hide()` then `on_exit()`. -/
def stop {σ : Type} (H : Hooks σ) (st : σ × List Hook) : σ × List Hook :=
  invokeHook H.on_exit .on_exit (invokeHook H.on_hide .on_hide st)

/-- `AppBase.pause`: calls `on_hide()`. -/
def pause {σ : Type} (H : Hooks σ) (st : σ × List Hook) : σ × List Hook :=
  invokeHook H.on_hide .on_hide st

/-- `AppBase.resume`: calls `on_ready()`. -/
def resume {σ : Type} (H : Hooks σ) (st : σ × List Hook) : σ × List Hook :=
  invokeHook H.on_ready .on_ready st

end AppBase

/-!
## App registry (`Framework._scan_directory`, `framework.py` lines 226-298)

The hierarchical registry built by scanning manifests: a node holds a list
of app entries and a list of named submenus.  (Scanning itself reads the
filesystem; the registry produced by a scan is a parameter of the model.)
-/

/-- One app entry of the registry: `{"module": ..., "name": ..., "path": ...}`. -/
structure AppEntry where
  module : String
  name : String
  path : String
  deriving DecidableEq, Repr

/-- A registry node: `{"apps": [...], "submenus": {...}}` with a display
name per submenu. -/
inductive Registry where
  | node (apps : List AppEntry) (submenus : List (String × Registry))

/-!
## Launcher menu state (`apps/launcher.py`)

`LauncherApp` keeps a selection index, a scroll offset, the registry node
being displayed and a stack of saved parent contexts
`(registry, selected, scroll)`.
-/

structure LauncherSt where
  selected : Int
  scrollOffset : Int
  menuStack : List (Registry × Int × Int)
  currentRegistry : Option Registry

/-- An entry of the flattened current menu, as produced by
`LauncherApp._get_menu_entries`. -/
inductive MenuEntry where
  | submenu (key : String) (reg : Registry)
  | app (e : AppEntry)

/-- `LauncherApp._get_menu_entries` (lines 134-157): submenus first, then
apps; empty when no registry is set. -/
def getMenuEntries (st : LauncherSt) : List MenuEntry :=
  match st.currentRegistry with
  | none => []
  | some (Registry.node apps subs) =>
      subs.map (fun s => MenuEntry.submenu s.1 s.2) ++ apps.map MenuEntry.app

/-- `VISIBLE_ITEMS` (launcher.py line 80). -/
def VISIBLE_ITEMS : Int := 4

/-- The state mutations performed by `LauncherApp._draw_menu`
(lines 182-192): clamp the selection into the entry range and adjust the
scroll offset to keep the selection visible.  (The early `return` for an
empty menu happens before any mutation.)  Drawing itself is display I/O
and has no further state effect. -/
def drawMenu (st : LauncherSt) : LauncherSt :=
  let n : Int := (getMenuEntries st).length
  if n = 0 then st
  else
    let sel₁ := if st.selected ≥ n then n - 1 else st.selected
    let sel₂ := if sel₁ < 0 then 0 else sel₁
    let scr :=
      if sel₂ < st.scrollOffset then sel₂
      else if sel₂ ≥ st.scrollOffset + VISIBLE_ITEMS then
        sel₂ - VISIBLE_ITEMS + 1
      else st.scrollOffset
    { st with selected := sel₂, scrollOffset := scr }

/-!
## `Framework` (`lib/framework.py`)

The framework state.  `ext` carries the private state of the apps the
claims need (for the launcher claims `σ := LauncherSt`, otherwise
`σ := Unit`).  All lifecycle hooks behave as the `AppBase` defaults at
this level: `on_ready` stores a fresh task handle in `task`, `on_hide`
cancels and clears it, the remaining defaults are no-ops (framework-level
claims never run an overridden lifecycle hook; the launcher's overridden
key handler is embedded separately below).
-/

structure Fw (σ : Type) where
  /-- `self._apps`. -/
  apps : List AppId
  /-- `self._app_selector._id` (the selector shares the `apps` list). -/
  selId : Int
  /-- `self._launcher`. -/
  launcher : Option AppId
  /-- `self._running`. -/
  running : Bool
  /-- each installed app's `_task` attribute. -/
  task : AppId → Option TaskId
  /-- source of fresh task handles for `asyncio.create_task`. -/
  nextTask : TaskId
  /-- `self._app_registry`. -/
  appRegistry : Option Registry
  /-- `self._registry_scanned`. -/
  registryScanned : Bool
  /-- `self._app_instances` as an association list, newest first. -/
  instCache : List (String × AppId)
  /-- source of fresh instance identifiers for `app_class()`. -/
  nextApp : AppId
  /-- instrumentation: the log of observable events. -/
  trace : List Ev
  /-- private state of the relevant app(s). -/
  ext : σ

namespace Fw

/-- The selector's `current()` as seen from the framework
(`self._app_selector.current()`). -/
def selCurrent {σ : Type} (fw : Fw σ) : Option AppId :=
  if 0 ≤ fw.selId then fw.apps.get? fw.selId.toNat else none

/-- `AppBase.stop` with the default hooks, as it acts on framework state:
`on_hide` cancels and clears the app's task, `on_exit` is a no-op; both
invocations are logged. -/
def appStop {σ : Type} (a : AppId) (fw : Fw σ) : Fw σ :=
  { fw with
    task := fun x => if x = a then none else fw.task x
    trace := fw.trace ++ [Ev.hook a Hook.on_hide, Ev.hook a Hook.on_exit] }

/-- `AppBase.start` with the default hooks, as it acts on framework state:
`on_launch` and `on_view` are no-ops, `on_ready` stores a fresh task
handle (`asyncio.create_task(self.on_run())`); all three invocations are
logged. -/
def appStart {σ : Type} (a : AppId) (fw : Fw σ) : Fw σ :=
  { fw with
    task := fun x => if x = a then some fw.nextTask else fw.task x
    nextTask := fw.nextTask + 1
    trace := fw.trace ++
      [Ev.hook a Hook.on_launch, Ev.hook a Hook.on_view,
       Ev.hook a Hook.on_ready] }

/-- `Framework.install` (lines 158-171): `app.install()` (which calls
`on_install`), then append to the list — with no duplicate check. -/
def install {σ : Type} (a : AppId) (fw : Fw σ) : Fw σ :=
  { fw with
    apps := fw.apps ++ [a]
    trace := fw.trace ++ [Ev.hook a Hook.on_install] }

/-- `Framework.install_launcher` (lines 142-156). -/
def install_launcher {σ : Type} (l : AppId) (fw : Fw σ) : Fw σ :=
  { fw with launcher := some l }

/-- `Framework.launch_app` (lines 482-500), as the list of states after
each statement: after `current.stop()`, after
`self._app_selector.select(app)`, and after `app.start(self)`.  When
`current()` raises (`none`) nothing has executed; when `select` raises the
executed prefix ends with the stop. -/
def launch_app_states {σ : Type} (b : AppId) (fw : Fw σ) : List (Fw σ) :=
  match fw.selCurrent with
  | none => [fw]
  | some cur =>
    match listIndex b (appStop cur fw).apps with
    | none => [appStop cur fw]
    | some i =>
      [appStop cur fw,
       { appStop cur fw with selId := (i : Int) },
       appStart b { appStop cur fw with selId := (i : Int) }]

/-- `Framework.launch_app`: the final state (the state at the raise, on
the exception paths). -/
def launch_app {σ : Type} (b : AppId) (fw : Fw σ) : Fw σ :=
  match fw.selCurrent with
  | none => fw
  | some cur =>
    match listIndex b (appStop cur fw).apps with
    | none => appStop cur fw
    | some i => appStart b { appStop cur fw with selId := (i : Int) }

/-- `Framework.return_to_launcher` (lines 502-524).  The invocation itself
is logged (`Ev.rtl`); with no launcher set the current app is stopped and
the loop flag cleared; otherwise, unless the current app already is the
launcher, the current app is stopped, the launcher selected and started. -/
def return_to_launcher {σ : Type} (fw : Fw σ) : Fw σ :=
  let fw₁ := { fw with trace := fw.trace ++ [Ev.rtl] }
  match fw₁.selCurrent with
  | none => fw₁
  | some cur =>
    match fw₁.launcher with
    | none => { appStop cur fw₁ with running := false }
    | some l =>
      if cur ≠ l then
        let s₁ := appStop cur fw₁
        match listIndex l s₁.apps with
        | none => s₁
        | some i => appStart l { s₁ with selId := (i : Int) }
      else fw₁

end Fw

/-!
## Key events and dispatch (`framework.py` lines 62-94, 530-603)
-/

/-- `KeyEvent`: a key code and the mutable `status` ("handled") flag. -/
structure KeyEvent where
  key : Int
  status : Bool
  deriving DecidableEq, Repr

/-- The `_kb_event_handler(event, fw)` contract: the handler may mutate
the event (in particular set `status`) and call back into the framework. -/
def Handler (σ : Type) : Type := KeyEvent → Fw σ → KeyEvent × Fw σ

namespace Fw

/-- `Framework.handle_input` (lines 582-602): fetch the current app, call
its `_kb_event_handler` if it defines one (the `hasattr` check — `none`
models an app without the attribute), then, if the event's status is still
false and the key is ESC, call `return_to_launcher`.  When `current()`
raises (`none`) no state has been mutated. -/
def handle_input {σ : Type} (handlers : AppId → Option (Handler σ))
    (ev : KeyEvent) (fw : Fw σ) : Fw σ :=
  match fw.selCurrent with
  | none => fw
  | some a =>
    let r : KeyEvent × Fw σ :=
      match handlers a with
      | some h => h ev fw
      | none => (ev, fw)
    if r.1.status = false ∧ r.1.key = KeyCode.KEYCODE_ESC then
      return_to_launcher r.2
    else r.2

/-- One key dispatch of `Framework.run` (lines 570-576): populate the
shared event with the polled key, reset its `status` flag to `False`, and
route it through `handle_input`. -/
def dispatchKey {σ : Type} (handlers : AppId → Option (Handler σ))
    (k : Int) (fw : Fw σ) : Fw σ :=
  handle_input handlers { key := k, status := false } fw

end Fw

/-!
## Lazy loading (`framework.py` lines 185-195, 201-224, 336-444)

Importing a module touches the interpreter and the filesystem; the model
takes the outside world as a parameter: whether `__import__(p)` succeeds,
and whether `_find_app_class` finds an `AppBase` subclass in the imported
module.  A successful load instantiates a fresh app instance
(`app_class()` allocates a new object on every call).
-/

/-- The import environment `_load_app` runs against. -/
structure ModuleEnv where
  /-- `__import__(module_name)` completes without raising. -/
  importOk : String → Bool
  /-- `_find_app_class(module)` finds an `AppBase` subclass. -/
  hasClass : String → Bool

/-- First cached instance for a module path (`self._app_instances`,
a dict: at most one binding per key, newest binding first here). -/
def cacheLookup (p : String) : List (String × AppId) → Option AppId
  | [] => none
  | (q, a) :: rest => if q = p then some a else cacheLookup p rest

namespace Fw

/-- `Framework.scan_apps` (lines 201-224): rebuild the registry from disk
unless already scanned and not forced; on `force` the instance cache is
cleared first.  `scanned` is the registry the directory scan of
`self._apps_dir` produces (a parameter: the disk contents). -/
def scan_apps {σ : Type} (scanned : Registry) (force : Bool) (fw : Fw σ) :
    Fw σ :=
  if fw.registryScanned ∧ force = false then fw
  else
    { fw with
      instCache := if force then [] else fw.instCache
      appRegistry := some scanned
      registryScanned := true }

/-- `Framework._load_app` (lines 357-418): attempt the import (logged);
on success find the app class; if found, instantiate a fresh instance,
run `app.install()` (logs `on_install`), cache it, and append it to
`_apps` unless already present.  A failed import or a missing class is
caught and yields `none`. -/
def load_app {σ : Type} (env : ModuleEnv) (p : String) (fw : Fw σ) :
    Option AppId × Fw σ :=
  let fw₁ := { fw with trace := fw.trace ++ [Ev.importMod p] }
  if env.importOk p then
    if env.hasClass p then
      let a := fw₁.nextApp
      (some a,
        { fw₁ with
          nextApp := a + 1
          trace := fw₁.trace ++ [Ev.hook a Hook.on_install]
          instCache := (p, a) :: fw₁.instCache
          apps := if a ∈ fw₁.apps then fw₁.apps else fw₁.apps ++ [a] })
    else (none, fw₁)
  else (none, fw₁)

/-- `Framework.get_or_load_app` (lines 336-355): return the cached
instance when present, otherwise load. -/
def get_or_load_app {σ : Type} (env : ModuleEnv) (p : String) (fw : Fw σ) :
    Option AppId × Fw σ :=
  match cacheLookup p fw.instCache with
  | some a => (some a, fw)
  | none => load_app env p fw

/-- `Framework.clear_app_cache` (lines 420-444): drop all cached
instances, force a rescan, and keep only the launcher in `_apps`
(`[app for app in self._apps if app is self._launcher]`).  The eviction
of cached Python modules lives in `sys.modules`, outside this state. -/
def clear_app_cache {σ : Type} (fw : Fw σ) : Fw σ :=
  { fw with
    instCache := []
    registryScanned := false
    apps := fw.apps.filter (fun a => fw.launcher = some a) }

end Fw

/-!
## `LauncherApp._kb_event_handler` (`apps/launcher.py` lines 256-325)

The launcher's menu state is the framework's `ext` component
(`σ := LauncherSt`).  The menu stack's top is the head of the list
(`self._menu_stack.append` / `.pop()` push and pop the stack's top).
`runModeRemote` is the module constant `RUN_MODE == "remote"`; `env` and
`rescan` are the import environment and the registry a forced rescan of
the apps directory produces (parameters: the outside world).
-/

/-- The launcher's `_kb_event_handler`, branch by branch: the dev-mode
reload key `r` (114), ESC (pop a submenu context, or fall through at the
root), the empty-menu early return, Enter (descend into a submenu or
load-and-launch the selected app), and the `;`/Up (59) and `.`/Down (46)
navigation keys. -/
def launcherHandler (runModeRemote : Bool) (env : ModuleEnv)
    (rescan : Registry) : Handler LauncherSt :=
  fun ev fw =>
    let st := fw.ext
    let entries := getMenuEntries st
    if ev.key = 114 ∧ runModeRemote then
      -- `_do_reload`: clear_app_cache, scan_apps(force=True), reset the
      -- menu to the root of the fresh registry, redraw.
      let fw₁ := Fw.scan_apps rescan true (Fw.clear_app_cache fw)
      let st₁ : LauncherSt :=
        { selected := 0, scrollOffset := 0, menuStack := [],
          currentRegistry := fw₁.appRegistry }
      ({ ev with status := true }, { fw₁ with ext := drawMenu st₁ })
    else if ev.key = KeyCode.KEYCODE_ESC then
      match st.menuStack with
      | (reg, sel, scr) :: rest =>
        -- In a submenu: pop and restore the parent context.
        let st₁ : LauncherSt :=
          { selected := sel, scrollOffset := scr, menuStack := rest,
            currentRegistry := some reg }
        ({ ev with status := true }, { fw with ext := drawMenu st₁ })
      | [] =>
        -- At root: plain `return`, leaving the event unhandled.
        (ev, fw)
    else if entries.isEmpty then (ev, fw)
    else if ev.key = KeyCode.KEYCODE_ENTER then
      let ev₁ := { ev with status := true }
      match (if 0 ≤ st.selected then entries.get? st.selected.toNat
             else none) with
      | none => (ev₁, fw)  -- `entries[self._selected]` raising IndexError
      | some (MenuEntry.submenu _ reg) =>
        match st.currentRegistry with
        | none => (ev₁, fw)  -- unreachable: entries nonempty needs a registry
        | some curReg =>
          let st₁ : LauncherSt :=
            { selected := 0, scrollOffset := 0,
              menuStack := (curReg, st.selected, st.scrollOffset) :: st.menuStack,
              currentRegistry := some reg }
          (ev₁, { fw with ext := drawMenu st₁ })
      | some (MenuEntry.app e) =>
        -- `_launch_app`: load (cached or imported), then `fw.launch_app`;
        -- on a failed load, show the error screen and redraw the menu.
        let r := Fw.get_or_load_app env e.path fw
        match r.1 with
        | some a => (ev₁, Fw.launch_app a r.2)
        | none => (ev₁, { r.2 with ext := drawMenu r.2.ext })
    else if ev.key = 59 ∨ ev.key = KeyCode.KEYCODE_UP then
      let st₁ := { st with
        selected := (st.selected - 1) % (entries.length : Int) }
      ({ ev with status := true }, { fw with ext := drawMenu st₁ })
    else if ev.key = 46 ∨ ev.key = KeyCode.KEYCODE_DOWN then
      let st₁ := { st with
        selected := (st.selected + 1) % (entries.length : Int) }
      ({ ev with status := true }, { fw with ext := drawMenu st₁ })
    else (ev, fw)

/-!
# Theorems
-/

/-- The framework state produced by `Framework.__init__` (lines 108-137):
empty app list, selector at 0, no launcher, not running, no tasks, empty
caches. -/
def Fw.initState : Fw Unit :=
  { apps := [], selId := 0, launcher := none, running := false,
    task := fun _ => none, nextTask := 0, appRegistry := none,
    registryScanned := false, instCache := [], nextApp := 0, trace := [],
    ext := () }

/-- Iterating `next` leaves the apps list unchanged and advances the
index by the iteration count, modulo the length. -/
theorem next_iterate (s : AppSelector) (k : Nat) :
    (AppSelector.next^[k + 1] s).apps = s.apps ∧
    (AppSelector.next^[k + 1] s).id =
      (s.id + (k + 1)) % (s.apps.length : Int) := by
  induction k with
  | zero =>
    refine ⟨rfl, ?_⟩
    show (s.id + 1) % (s.apps.length : Int) = _
    norm_num
  | succ m ih =>
    have hstep : AppSelector.next^[m + 1 + 1] s =
        AppSelector.next (AppSelector.next^[m + 1] s) :=
      Function.iterate_succ_apply' _ _ _
    obtain ⟨happs, hid⟩ := ih
    refine ⟨by rw [hstep]; exact happs, ?_⟩
    rw [hstep]
    show ((AppSelector.next^[m + 1] s).id + 1) %
        ((AppSelector.next^[m + 1] s).apps.length : Int) = _
    rw [happs, hid, Int.emod_add_emod]
    congr 1
    push_cast
    ring

/-- Iterating `prev` leaves the apps list unchanged and retreats the
index by the iteration count, modulo the length. -/
theorem prev_iterate (s : AppSelector) (k : Nat) :
    (AppSelector.prev^[k + 1] s).apps = s.apps ∧
    (AppSelector.prev^[k + 1] s).id =
      (s.id - (k + 1)) % (s.apps.length : Int) := by
  induction k with
  | zero =>
    refine ⟨rfl, ?_⟩
    show (s.id - 1) % (s.apps.length : Int) = _
    norm_num
  | succ m ih =>
    have hstep : AppSelector.prev^[m + 1 + 1] s =
        AppSelector.prev (AppSelector.prev^[m + 1] s) :=
      Function.iterate_succ_apply' _ _ _
    obtain ⟨happs, hid⟩ := ih
    refine ⟨by rw [hstep]; exact happs, ?_⟩
    rw [hstep]
    show ((AppSelector.prev^[m + 1] s).id - 1) %
        ((AppSelector.prev^[m + 1] s).apps.length : Int) = _
    rw [happs, hid, sub_eq_add_neg, Int.emod_add_emod]
    congr 1
    push_cast
    ring

/-- C5: for an app list of length `N ≥ 1` and a valid current index,
`next()` applied `N` times returns the selector to its original state
(in particular to the original current app), and likewise `prev()`. -/
theorem selector_cycle (s : AppSelector)
    (hlen : 1 ≤ s.apps.length)
    (hlo : 0 ≤ s.id) (hhi : s.id < (s.apps.length : Int)) :
    AppSelector.next^[s.apps.length] s = s ∧
    AppSelector.prev^[s.apps.length] s = s := by
  obtain ⟨n, hn⟩ : ∃ n, s.apps.length = n + 1 :=
    ⟨s.apps.length - 1, by omega⟩
  constructor
  · obtain ⟨happs, hid⟩ := next_iterate s n
    rw [hn] at hid ⊢
    have hid' : (AppSelector.next^[n + 1] s).id = s.id := by
      rw [hid, ← hn]
      have : s.id + ((n : Int) + 1) = s.id + (s.apps.length : Int) * 1 := by
        rw [hn]; push_cast; ring
      rw [this, Int.add_mul_emod_self_left, Int.emod_eq_of_lt hlo hhi]
    cases hiter : AppSelector.next^[n + 1] s with
    | mk apps id =>
      have h1 : apps = s.apps := by rw [← happs, hiter]
      have h2 : id = s.id := by rw [← hid', hiter]
      rw [h1, h2]
  · obtain ⟨happs, hid⟩ := prev_iterate s n
    rw [hn] at hid ⊢
    have hid' : (AppSelector.prev^[n + 1] s).id = s.id := by
      rw [hid, ← hn]
      have : s.id - ((n : Int) + 1) = s.id + (s.apps.length : Int) * (-1) := by
        rw [hn]; push_cast; ring
      rw [this, Int.add_mul_emod_self_left, Int.emod_eq_of_lt hlo hhi]
    cases hiter : AppSelector.prev^[n + 1] s with
    | mk apps id =>
      have h1 : apps = s.apps := by rw [← happs, hiter]
      have h2 : id = s.id := by rw [← hid', hiter]
      rw [h1, h2]

/-- C5 witness: with three apps and starting index 1, three `next()` and
three `prev()` calls each return to the original state. -/
theorem selector_cycle_witness :
    AppSelector.next^[3] (AppSelector.mk [4, 5, 6] 1) =
        AppSelector.mk [4, 5, 6] 1 ∧
    AppSelector.prev^[3] (AppSelector.mk [4, 5, 6] 1) =
        AppSelector.mk [4, 5, 6] 1 :=
  selector_cycle (AppSelector.mk [4, 5, 6] 1) (by decide) (by decide)
    (by decide)

/-- C4 counterexample: `Framework.install` performs no duplicate
detection, so installing the same app instance twice yields the list
`[7, 7]`.  On that list, with current index 1, `current()` is app `7`,
but `select(current())` resets the index to the *first* occurrence
(`list.index`), index 0 — the current index changes, so
`select(current())` is not a no-op on every install-producible list. -/
theorem select_current_changes_index :
    (Fw.install 7 (Fw.install 7 Fw.initState)).apps = [7, 7] ∧
    AppSelector.current (AppSelector.mk [7, 7] 1) = some 7 ∧
    AppSelector.select (AppSelector.mk [7, 7] 1) 7 =
      some (AppSelector.mk [7, 7] 0) ∧
    (AppSelector.mk [7, 7] 0).id ≠ (AppSelector.mk [7, 7] 1).id := by
  refine ⟨rfl, rfl, rfl, by decide⟩

/-- C4 amended: on a duplicate-free app list (`N ≥ 1`, valid current
index), `select(current())` is a no-op: the selector state — in
particular the current index — is unchanged. -/
theorem select_current_noop (s : AppSelector) (hnd : s.apps.Nodup)
    (cur : AppId) (hcur : s.current = some cur) :
    s.select cur = some s := by
  unfold AppSelector.current at hcur
  split at hcur
  case isTrue hpos =>
    have hidx := listIndex_get_of_nodup hnd hcur
    simp [AppSelector.select, hidx, Int.toNat_of_nonneg hpos]
  case isFalse => exact absurd hcur (by simp)

/-- C4 witness for the amended theorem: on the duplicate-free list
`[3, 5]` with current index 1 (current app 5), selecting the current app
leaves the selector unchanged. -/
theorem select_current_noop_witness :
    AppSelector.select (AppSelector.mk [3, 5] 1) 5 =
      some (AppSelector.mk [3, 5] 1) :=
  select_current_noop (AppSelector.mk [3, 5] 1) (by decide) 5 rfl

/-- C1: for every app (i.e. every choice of overridden hook
implementations `H` over any private state) and every call to `start()`,
the hooks `on_launch()`, `on_view()`, `on_ready()` are each invoked
exactly once, in that order (the calls appended to the log are exactly
`[on_launch, on_view, on_ready]`); every call to `stop()` invokes
`on_hide()` then `on_exit()`, each exactly once, in that order. -/
theorem start_stop_hook_order {σ : Type} (H : Hooks σ) (s : σ)
    (tr : List Hook) :
    (AppBase.start H (s, tr)).2 =
      tr ++ [Hook.on_launch, Hook.on_view, Hook.on_ready] ∧
    (AppBase.stop H (s, tr)).2 = tr ++ [Hook.on_hide, Hook.on_exit] := by
  constructor <;> simp [AppBase.start, AppBase.stop, invokeHook]

/-- Auxiliary: a single call to `return_to_launcher` records exactly one
`rtl` event (the lifecycle hooks it may run record no `rtl`). -/
theorem rtlCount_return_to_launcher {σ : Type} (fw : Fw σ) :
    rtlCount (Fw.return_to_launcher fw).trace = rtlCount fw.trace + 1 := by
  simp only [Fw.return_to_launcher]
  split
  · simp [rtlCount_append, rtlCount]
  · split
    · simp [Fw.appStop, rtlCount_append, rtlCount]
    · split
      · split
        · simp [Fw.appStop, rtlCount_append, rtlCount]
        · simp [Fw.appStart, Fw.appStop, rtlCount_append, rtlCount]
      · simp [rtlCount_append, rtlCount]

/-- C2: for a dispatched ESC key event (whose `status` flag the run loop
has just reset to `False`), if the current app's key handler leaves the
flag false the framework invokes `return_to_launcher` exactly once after
the handler returns, and if the handler sets the flag it invokes it not
at all; moreover every dispatch hands `handle_input` an event whose flag
starts out false. -/
theorem esc_dispatch_default_action {σ : Type}
    (handlers : AppId → Option (Handler σ)) (fw : Fw σ) (a : AppId)
    (h : Handler σ) (ev' : KeyEvent) (fw' : Fw σ)
    (hcur : fw.selCurrent = some a)
    (hh : handlers a = some h)
    (hrun : h { key := KeyCode.KEYCODE_ESC, status := false } fw = (ev', fw'))
    (hkey : ev'.key = KeyCode.KEYCODE_ESC) :
    rtlCount (Fw.dispatchKey handlers KeyCode.KEYCODE_ESC fw).trace =
      rtlCount fw'.trace + (if ev'.status then 0 else 1) ∧
    (∀ k : Int, Fw.dispatchKey handlers k fw =
      Fw.handle_input handlers { key := k, status := false } fw) := by
  refine ⟨?_, fun k => rfl⟩
  unfold Fw.dispatchKey Fw.handle_input
  rw [hcur]
  simp only [hh, hrun]
  cases hst : ev'.status with
  | false => simp [hst, hkey, rtlCount_return_to_launcher]
  | true => simp [hst]

/-- C2 witness: a concrete framework (one installed app `0`, which is
also the launcher) whose handler inspects the event but leaves `status`
false; dispatching ESC records exactly one `return_to_launcher`
invocation. -/
theorem esc_dispatch_default_action_witness :
    rtlCount (Fw.dispatchKey
        (fun _ => some (fun ev fw => (ev, fw)))
        KeyCode.KEYCODE_ESC
        { apps := [0], selId := 0, launcher := some 0, running := true,
          task := fun _ => none, nextTask := 0, appRegistry := none,
          registryScanned := false, instCache := [], nextApp := 1,
          trace := [], ext := () }).trace =
      rtlCount ([] : List Ev) + 1 ∧
    (∀ k : Int, Fw.dispatchKey (fun _ => some (fun ev fw => (ev, fw))) k
        { apps := [0], selId := 0, launcher := some 0, running := true,
          task := fun _ => none, nextTask := 0, appRegistry := none,
          registryScanned := false, instCache := [], nextApp := 1,
          trace := [], ext := () } =
      Fw.handle_input (fun _ => some (fun ev fw => (ev, fw)))
        { key := k, status := false }
        { apps := [0], selId := 0, launcher := some 0, running := true,
          task := fun _ => none, nextTask := 0, appRegistry := none,
          registryScanned := false, instCache := [], nextApp := 1,
          trace := [], ext := () }) :=
  esc_dispatch_default_action (fun _ => some (fun ev fw => (ev, fw)))
    { apps := [0], selId := 0, launcher := some 0, running := true,
      task := fun _ => none, nextTask := 0, appRegistry := none,
      registryScanned := false, instCache := [], nextApp := 1,
      trace := [], ext := () }
    0 (fun ev fw => (ev, fw)) { key := KeyCode.KEYCODE_ESC, status := false }
    { apps := [0], selId := 0, launcher := some 0, running := true,
      task := fun _ => none, nextTask := 0, appRegistry := none,
      registryScanned := false, instCache := [], nextApp := 1,
      trace := [], ext := () }
    rfl rfl rfl rfl

/-- C10: when the current app defines no `_kb_event_handler`, the handler
call is skipped and the event's flag stays false, so a dispatched ESC key
still runs `return_to_launcher` and any other key leaves the framework
state exactly as it was. -/
theorem dispatch_without_handler {σ : Type}
    (handlers : AppId → Option (Handler σ)) (fw : Fw σ) (a : AppId)
    (k : Int)
    (hcur : fw.selCurrent = some a)
    (hh : handlers a = none) :
    Fw.dispatchKey handlers k fw =
      if k = KeyCode.KEYCODE_ESC then Fw.return_to_launcher fw else fw := by
  unfold Fw.dispatchKey Fw.handle_input
  rw [hcur]
  simp only [hh]
  by_cases hk : k = KeyCode.KEYCODE_ESC
  · simp [hk]
  · simp [hk]

/-- C10 witness: a framework with one installed handler-less app; a
dispatched `'x'` key (code 120) leaves the state unchanged, an ESC key
routes to `return_to_launcher`. -/
theorem dispatch_without_handler_witness :
    Fw.dispatchKey (fun _ => (none : Option (Handler Unit))) 120
        { apps := [0], selId := 0, launcher := some 0, running := true,
          task := fun _ => none, nextTask := 0, appRegistry := none,
          registryScanned := false, instCache := [], nextApp := 1,
          trace := [], ext := () } =
      { apps := [0], selId := 0, launcher := some 0, running := true,
        task := fun _ => none, nextTask := 0, appRegistry := none,
        registryScanned := false, instCache := [], nextApp := 1,
        trace := [], ext := () } := by
  have h := dispatch_without_handler (fun _ => (none : Option (Handler Unit)))
    { apps := [0], selId := 0, launcher := some 0, running := true,
      task := fun _ => none, nextTask := 0, appRegistry := none,
      registryScanned := false, instCache := [], nextApp := 1,
      trace := [], ext := () } 0 120 rfl rfl
  rwa [if_neg (by decide)] at h

/-- C3: for `launch_app(B)` with the current app `a` holding the only
possibly-live task, the statements execute in the order: `current.stop()`
(clearing `a`'s task in `on_hide`), then the selector update, then
`B.start()` (creating `B`'s task in `on_ready`) — conjunct 1; in every
intermediate state no two different apps' task handles are simultaneously
un-cancelled — conjunct 2; the trace shows `stop` completing before any
of `B`'s start hooks — conjunct 3; and afterwards the outgoing app's
handle is cleared while `B`'s is set — conjunct 4. -/
theorem launch_app_task_exclusive {σ : Type} (b : AppId) (fw : Fw σ)
    (a : AppId)
    (hcur : fw.selCurrent = some a)
    (hmem : b ∈ fw.apps)
    (hone : ∀ x, (fw.task x).isSome → x = a) :
    (∃ i, listIndex b fw.apps = some i ∧
      Fw.launch_app_states b fw =
        [Fw.appStop a fw,
         { Fw.appStop a fw with selId := (i : Int) },
         Fw.appStart b { Fw.appStop a fw with selId := (i : Int) }]) ∧
    (∀ s ∈ Fw.launch_app_states b fw, ∀ x y, x ≠ y →
      (s.task x).isSome → (s.task y).isSome → False) ∧
    (Fw.launch_app b fw).trace = fw.trace ++
      [Ev.hook a Hook.on_hide, Ev.hook a Hook.on_exit,
       Ev.hook b Hook.on_launch, Ev.hook b Hook.on_view,
       Ev.hook b Hook.on_ready] ∧
    (a ≠ b → (Fw.launch_app b fw).task a = none ∧
      ((Fw.launch_app b fw).task b).isSome) := by
  obtain ⟨i, hi⟩ := listIndex_of_mem hmem
  have hstopapps : (Fw.appStop a fw).apps = fw.apps := rfl
  have hstates : Fw.launch_app_states b fw =
      [Fw.appStop a fw,
       { Fw.appStop a fw with selId := (i : Int) },
       Fw.appStart b { Fw.appStop a fw with selId := (i : Int) }] := by
    unfold Fw.launch_app_states
    simp only [hcur, hstopapps, hi]
  have hfinal : Fw.launch_app b fw =
      Fw.appStart b { Fw.appStop a fw with selId := (i : Int) } := by
    unfold Fw.launch_app
    simp only [hcur, hstopapps, hi]
  have hstopnone : ∀ x, (Fw.appStop a fw).task x = none := by
    intro x
    show (if x = a then none else fw.task x) = none
    by_cases hx : x = a
    · simp [hx]
    · simp only [hx, if_false]
      cases hfw : fw.task x with
      | none => rfl
      | some t => exact absurd (hone x (by rw [hfw]; rfl)) hx
  refine ⟨⟨i, hi, hstates⟩, ?_, ?_, ?_⟩
  · intro s hs x y hxy hx hy
    rw [hstates] at hs
    simp only [List.mem_cons, List.not_mem_nil, or_false] at hs
    rcases hs with h₁ | h₂ | h₃
    · rw [h₁, hstopnone x] at hx
      exact Bool.noConfusion hx
    · rw [h₂] at hx
      rw [show ({ Fw.appStop a fw with selId := (i : Int) } : Fw σ).task x
            = (Fw.appStop a fw).task x from rfl, hstopnone x] at hx
      exact Bool.noConfusion hx
    · rw [h₃] at hx hy
      by_cases hxb : x = b
      · have hyb : ¬ y = b := fun he => hxy (hxb.trans he.symm)
        rw [show (Fw.appStart b
              { Fw.appStop a fw with selId := (i : Int) }).task y
            = (if y = b then some fw.nextTask else (Fw.appStop a fw).task y)
            from rfl] at hy
        rw [if_neg hyb, hstopnone y] at hy
        exact Bool.noConfusion hy
      · rw [show (Fw.appStart b
              { Fw.appStop a fw with selId := (i : Int) }).task x
            = (if x = b then some fw.nextTask else (Fw.appStop a fw).task x)
            from rfl] at hx
        rw [if_neg hxb, hstopnone x] at hx
        exact Bool.noConfusion hx
  · rw [hfinal]
    show ((fw.trace ++ [Ev.hook a Hook.on_hide, Ev.hook a Hook.on_exit]) ++
        [Ev.hook b Hook.on_launch, Ev.hook b Hook.on_view,
         Ev.hook b Hook.on_ready]) = _
    simp [List.append_assoc]
  · intro hab
    rw [hfinal]
    constructor
    · show (if a = b then some fw.nextTask
          else (Fw.appStop a fw).task a) = none
      rw [if_neg hab, hstopnone a]
    · show (if b = b then some fw.nextTask
          else (Fw.appStop a fw).task b).isSome = true
      simp

/-- Two installed apps `0` (current, also the launcher) and `1`, no live
task; used to witness the `launch_app` claims. -/
def fwPair : Fw Unit :=
  { apps := [0, 1], selId := 0, launcher := some 0, running := true,
    task := fun _ => none, nextTask := 0, appRegistry := none,
    registryScanned := false, instCache := [], nextApp := 2, trace := [],
    ext := () }

/-- C3 witness: launching app `1` from current app `0` in `fwPair`. -/
theorem launch_app_task_exclusive_witness :
    (∃ i, listIndex 1 fwPair.apps = some i ∧
      Fw.launch_app_states 1 fwPair =
        [Fw.appStop 0 fwPair,
         { Fw.appStop 0 fwPair with selId := (i : Int) },
         Fw.appStart 1 { Fw.appStop 0 fwPair with selId := (i : Int) }]) ∧
    (∀ s ∈ Fw.launch_app_states 1 fwPair, ∀ x y, x ≠ y →
      (s.task x).isSome → (s.task y).isSome → False) ∧
    (Fw.launch_app 1 fwPair).trace = fwPair.trace ++
      [Ev.hook 0 Hook.on_hide, Ev.hook 0 Hook.on_exit,
       Ev.hook 1 Hook.on_launch, Ev.hook 1 Hook.on_view,
       Ev.hook 1 Hook.on_ready] ∧
    ((0 : AppId) ≠ 1 → (Fw.launch_app 1 fwPair).task 0 = none ∧
      ((Fw.launch_app 1 fwPair).task 1).isSome) :=
  launch_app_task_exclusive 1 fwPair 0 (by decide) (by decide)
    (by intro x h; simp [fwPair] at h)

/-- C9: calling `launch_app(b)` with an app `b` not in the framework's
list stops the current app `a` first (`on_hide`/`on_exit` have run and
its task handle is cleared) and only then fails the membership lookup in
`select`; the selector index is unchanged and none of `b`'s start hooks
run — `launch_app` is not atomic on this error. -/
theorem launch_app_not_atomic {σ : Type} (b : AppId) (fw : Fw σ)
    (a : AppId)
    (hcur : fw.selCurrent = some a) (hnm : b ∉ fw.apps) :
    Fw.launch_app b fw = Fw.appStop a fw ∧
    (Fw.launch_app b fw).trace =
      fw.trace ++ [Ev.hook a Hook.on_hide, Ev.hook a Hook.on_exit] ∧
    (Fw.launch_app b fw).task a = none ∧
    (Fw.launch_app b fw).selId = fw.selId ∧
    (∀ h : Hook,
      Ev.hook b h ∉ (Fw.launch_app b fw).trace.drop fw.trace.length) := by
  have hamem : a ∈ fw.apps := by
    unfold Fw.selCurrent at hcur
    split at hcur
    · exact List.get?_mem hcur
    · exact absurd hcur (by simp)
  have hane : a ≠ b := fun he => hnm (he ▸ hamem)
  have hnone : listIndex b (Fw.appStop a fw).apps = none :=
    listIndex_none_of_not_mem hnm
  have hfinal : Fw.launch_app b fw = Fw.appStop a fw := by
    unfold Fw.launch_app
    simp only [hcur, hnone]
  refine ⟨hfinal, ?_, ?_, ?_, ?_⟩
  · rw [hfinal]; rfl
  · rw [hfinal]
    show (if a = a then none else fw.task a) = none
    simp
  · rw [hfinal]; rfl
  · intro h
    rw [hfinal]
    show Ev.hook b h ∉
      (fw.trace ++ [Ev.hook a Hook.on_hide, Ev.hook a Hook.on_exit]).drop
        fw.trace.length
    rw [List.drop_left]
    intro hmem
    simp only [List.mem_cons, List.not_mem_nil, or_false] at hmem
    rcases hmem with h₁ | h₂
    · exact hane ((Ev.hook.inj h₁).1.symm)
    · exact hane ((Ev.hook.inj h₂).1.symm)

/-- C9 witness: launching the uninstalled app `5` from `fwPair` stops the
current app `0` and then fails, leaving no app started. -/
theorem launch_app_not_atomic_witness :
    Fw.launch_app 5 fwPair = Fw.appStop 0 fwPair ∧
    (Fw.launch_app 5 fwPair).trace =
      fwPair.trace ++ [Ev.hook 0 Hook.on_hide, Ev.hook 0 Hook.on_exit] ∧
    (Fw.launch_app 5 fwPair).task 0 = none ∧
    (Fw.launch_app 5 fwPair).selId = fwPair.selId ∧
    (∀ h : Hook,
      Ev.hook 5 h ∉
        (Fw.launch_app 5 fwPair).trace.drop fwPair.trace.length) :=
  launch_app_not_atomic 5 fwPair 0 (by decide) (by decide)

/-- C7: if `get_or_load_app(p)` returns an instance, calling it again
with the same path returns the very same instance and leaves the
framework state — including the event trace, hence with no second import
— untouched. -/
theorem get_or_load_app_cached {σ : Type} (env : ModuleEnv) (p : String)
    (fw fw₁ : Fw σ) (a : AppId)
    (h : Fw.get_or_load_app env p fw = (some a, fw₁)) :
    Fw.get_or_load_app env p fw₁ = (some a, fw₁) := by
  have hcache : cacheLookup p fw₁.instCache = some a := by
    unfold Fw.get_or_load_app at h
    cases hl : cacheLookup p fw.instCache with
    | some a₀ =>
      rw [hl] at h
      obtain ⟨ha, hfw⟩ := Prod.mk.injEq .. ▸ h
      rw [← hfw, hl, ha]
    | none =>
      rw [hl] at h
      unfold Fw.load_app at h
      by_cases hio : env.importOk p
      · rw [if_pos hio] at h
        by_cases hcl : env.hasClass p
        · rw [if_pos hcl] at h
          obtain ⟨ha, hfw⟩ := Prod.mk.injEq .. ▸ h
          rw [← hfw]
          show (if p = p then some fw.nextApp else _) = some a
          rw [if_pos rfl]
          exact congrArg _ (Option.some.inj ha)
        · rw [if_neg hcl] at h
          exact absurd (Prod.mk.injEq .. ▸ h).1 (by simp)
      · rw [if_neg hio] at h
        exact absurd (Prod.mk.injEq .. ▸ h).1 (by simp)
  unfold Fw.get_or_load_app
  rw [hcache]

/-- C7 witness: a framework whose cache already holds instance `3` for
path `"hello"`; a repeated `get_or_load_app` is cache-stable. -/
theorem get_or_load_app_cached_witness :
    Fw.get_or_load_app (ModuleEnv.mk (fun _ => true) (fun _ => true))
        "hello"
        { apps := [0, 3], selId := 0, launcher := some 0, running := true,
          task := fun _ => none, nextTask := 0, appRegistry := none,
          registryScanned := true, instCache := [("hello", 3)],
          nextApp := 4, trace := [], ext := () } =
      (some 3,
        { apps := [0, 3], selId := 0, launcher := some 0, running := true,
          task := fun _ => none, nextTask := 0, appRegistry := none,
          registryScanned := true, instCache := [("hello", 3)],
          nextApp := 4, trace := [], ext := () }) :=
  get_or_load_app_cached (ModuleEnv.mk (fun _ => true) (fun _ => true))
    "hello"
    { apps := [0, 3], selId := 0, launcher := some 0, running := true,
      task := fun _ => none, nextTask := 0, appRegistry := none,
      registryScanned := true, instCache := [("hello", 3)],
      nextApp := 4, trace := [], ext := () }
    { apps := [0, 3], selId := 0, launcher := some 0, running := true,
      task := fun _ => none, nextTask := 0, appRegistry := none,
      registryScanned := true, instCache := [("hello", 3)],
      nextApp := 4, trace := [], ext := () }
    3 rfl

/-- C8: when the import of module path `p` fails, or the imported module
contains no `AppBase` subclass, `_load_app` catches the condition and
returns `none` ("no app"): no instance is cached, the app list is
unchanged, and only the logged import attempt is recorded. -/
theorem load_app_failure_returns_none {σ : Type} (env : ModuleEnv)
    (p : String) (fw : Fw σ)
    (h : env.importOk p = false ∨ env.hasClass p = false) :
    (Fw.load_app env p fw).1 = none ∧
    (Fw.load_app env p fw).2.instCache = fw.instCache ∧
    (Fw.load_app env p fw).2.apps = fw.apps ∧
    (Fw.load_app env p fw).2.trace = fw.trace ++ [Ev.importMod p] := by
  unfold Fw.load_app
  rcases h with h | h
  · simp [h]
  · by_cases hio : env.importOk p
    · simp [hio, h]
    · simp [hio]

/-- C8 witness: importing path `"broken"` fails in an environment where
no import succeeds; the load reports no app and changes no state beyond
the logged attempt. -/
theorem load_app_failure_returns_none_witness :
    (Fw.load_app (ModuleEnv.mk (fun _ => false) (fun _ => false)) "broken"
        Fw.initState).1 = none ∧
    (Fw.load_app (ModuleEnv.mk (fun _ => false) (fun _ => false)) "broken"
        Fw.initState).2.instCache = Fw.initState.instCache ∧
    (Fw.load_app (ModuleEnv.mk (fun _ => false) (fun _ => false)) "broken"
        Fw.initState).2.apps = Fw.initState.apps ∧
    (Fw.load_app (ModuleEnv.mk (fun _ => false) (fun _ => false)) "broken"
        Fw.initState).2.trace =
      Fw.initState.trace ++ [Ev.importMod "broken"] :=
  load_app_failure_returns_none (ModuleEnv.mk (fun _ => false)
    (fun _ => false)) "broken" Fw.initState (Or.inl rfl)

/-- C6: dispatching ESC while the current app is the launcher and the
launcher's menu stack is empty leaves the framework's app list, the
selector's current index and the launcher's menu state (current registry,
selection, scroll, stack) unchanged: the launcher's handler falls through
without setting the flag, and the guarded `return_to_launcher` is a
no-op because the current app already is the launcher. -/
theorem esc_at_launcher_root_noop (rm : Bool) (env : ModuleEnv)
    (rescan : Registry) (handlers : AppId → Option (Handler LauncherSt))
    (fw : Fw LauncherSt) (L : AppId)
    (hcur : fw.selCurrent = some L)
    (hl : fw.launcher = some L)
    (hstack : fw.ext.menuStack = [])
    (hh : handlers L = some (launcherHandler rm env rescan)) :
    (Fw.dispatchKey handlers KeyCode.KEYCODE_ESC fw).apps = fw.apps ∧
    (Fw.dispatchKey handlers KeyCode.KEYCODE_ESC fw).selId = fw.selId ∧
    (Fw.dispatchKey handlers KeyCode.KEYCODE_ESC fw).ext = fw.ext := by
  have hne : ¬ (({ key := KeyCode.KEYCODE_ESC, status := false } :
      KeyEvent).key = 114 ∧ rm = true) := by
    intro hc
    have := hc.1
    norm_num [KeyCode.KEYCODE_ESC] at this
  have hhandler : launcherHandler rm env rescan
      { key := KeyCode.KEYCODE_ESC, status := false } fw =
      ({ key := KeyCode.KEYCODE_ESC, status := false }, fw) := by
    unfold launcherHandler
    rw [if_neg hne, if_pos rfl, hstack]
  have hstep : Fw.dispatchKey handlers KeyCode.KEYCODE_ESC fw =
      Fw.return_to_launcher fw := by
    unfold Fw.dispatchKey Fw.handle_input
    rw [hcur]
    simp only [hh, hhandler]
    simp
  have hrtl : Fw.return_to_launcher fw =
      { fw with trace := fw.trace ++ [Ev.rtl] } := by
    unfold Fw.return_to_launcher
    have hcur' : Fw.selCurrent
        ({ fw with trace := fw.trace ++ [Ev.rtl] } : Fw LauncherSt) =
        some L := hcur
    simp only [hcur']
    simp only [hl]
    rw [if_neg (show ¬ (L ≠ L) by simp)]
  rw [hstep, hrtl]
  exact ⟨rfl, rfl, rfl⟩

/-- A concrete framework whose single installed app `0` is the launcher,
with the launcher's menu at the root (empty stack) of an empty registry. -/
def fwLauncherRoot : Fw LauncherSt :=
  { apps := [0], selId := 0, launcher := some 0, running := true,
    task := fun _ => none, nextTask := 0,
    appRegistry := some (Registry.node [] []), registryScanned := true,
    instCache := [], nextApp := 1, trace := [],
    ext := { selected := 0, scrollOffset := 0, menuStack := [],
             currentRegistry := some (Registry.node [] []) } }

/-- C6 witness: dispatching ESC on `fwLauncherRoot` changes neither the
app list nor the selector index nor the launcher's menu state. -/
theorem esc_at_launcher_root_noop_witness :
    (Fw.dispatchKey
        (fun _ => some (launcherHandler false
          (ModuleEnv.mk (fun _ => true) (fun _ => true))
          (Registry.node [] [])))
        KeyCode.KEYCODE_ESC fwLauncherRoot).apps = fwLauncherRoot.apps ∧
    (Fw.dispatchKey
        (fun _ => some (launcherHandler false
          (ModuleEnv.mk (fun _ => true) (fun _ => true))
          (Registry.node [] [])))
        KeyCode.KEYCODE_ESC fwLauncherRoot).selId = fwLauncherRoot.selId ∧
    (Fw.dispatchKey
        (fun _ => some (launcherHandler false
          (ModuleEnv.mk (fun _ => true) (fun _ => true))
          (Registry.node [] [])))
        KeyCode.KEYCODE_ESC fwLauncherRoot).ext = fwLauncherRoot.ext :=
  esc_at_launcher_root_noop false
    (ModuleEnv.mk (fun _ => true) (fun _ => true)) (Registry.node [] [])
    (fun _ => some (launcherHandler false
      (ModuleEnv.mk (fun _ => true) (fun _ => true))
      (Registry.node [] [])))
    fwLauncherRoot 0 rfl rfl rfl rfl
